import Mathlib

/-!
Verification of the rainbow token-list cache/update engine
(`src/references/rainbow-token-list/index.ts`).

The development shallowly embeds the module: the pure derived-index builder
`generateDerivedData`, the freshness comparison performed with JavaScript
`Date` objects, the refresh protocol `getTokenListUpdate` / `#update`, the
startup cache-adoption path run from the constructor, and the `update()`
dedup logic.  Effects (cache-envelope writes, `update` event emissions, the
value an async method resolves with) are made explicit in the return types.
-/

namespace Rainbow

/-- Model of JavaScript `String.prototype.toLowerCase` on the ASCII strings
this module handles: lowercase every character. -/
def toLowerStr (s : String) : String :=
  String.mk (s.data.map Char.toLower)

/-- Extension attributes (`extensions`) carried by a raw token entry; each
flag may be absent (`none` models an `undefined` field). -/
structure Extensions where
  isRainbowCurated : Option Bool
  isVerified : Option Bool
  deriving DecidableEq, Repr

/-- A raw token entry of a token-list document, before normalization.  The
`extensions` object itself may be absent. -/
structure RawToken where
  address : String
  decimals : Nat
  name : String
  symbol : String
  extensions : Option Extensions
  deriving DecidableEq, Repr

/-- A normalized token (`RainbowToken`): lowercased address, `uniqueId`
equal to the address, extension attributes merged in. -/
structure RainbowToken where
  address : String
  decimals : Nat
  name : String
  symbol : String
  uniqueId : String
  isRainbowCurated : Option Bool
  isVerified : Option Bool
  deriving DecidableEq, Repr

/-- The native-asset sentinel token `ethWithAddress`. -/
def ethWithAddress : RainbowToken :=
  { address := "eth"
    decimals := 18
    isRainbowCurated := some true
    isVerified := some true
    name := "Ethereum"
    symbol := "ETH"
    uniqueId := "eth" }

/-- A token-list document.  `timestamp` holds the numeric value of
`new Date(doc.timestamp)` (epoch milliseconds); `none` models a timestamp
field that is absent or does not parse (an Invalid Date in the source). -/
structure TokenListData where
  timestamp : Option Nat
  tokens : List RawToken
  deriving DecidableEq, Repr

/-- JavaScript `Date` comparison `a > b`: any comparison against an Invalid
Date (modelled by `none`) is false. -/
def dateGt : Option Nat → Option Nat → Bool
  | some a, some b => decide (b < a)
  | _, _ => false

/-- The normalization performed inside `generateDerivedData` on each raw
token: lowercase the address, set `uniqueId` to the lowercased address and
spread the (possibly absent) `extensions` object over the result. -/
def normalizeToken (t : RawToken) : RainbowToken :=
  { address := toLowerStr t.address
    decimals := t.decimals
    name := t.name
    symbol := t.symbol
    uniqueId := toLowerStr t.address
    isRainbowCurated := t.extensions.bind fun e => e.isRainbowCurated
    isVerified := t.extensions.bind fun e => e.isVerified }

/-- lodash `keyBy`, as the lookup function of the object it builds: the
object is filled in iteration order, so on a key collision the later
element wins.  `keyBy key l s` is the value the built object holds at
key `s`. -/
def keyBy {α : Type} (key : α → String) : List α → String → Option α
  | [], _ => none
  | a :: rest, s =>
      match keyBy key rest s with
      | some v => some v
      | none => if key a = s then some a else none

/-- The working list `tokenListWithEth`: the sentinel prepended to the
normalized tokens of the document. -/
def tokenListWithEth (tokenListData : TokenListData) : List RainbowToken :=
  ethWithAddress :: tokenListData.tokens.map normalizeToken

/-- The curated sublist `curatedRainbowTokenList`: tokens of the working
list whose `isRainbowCurated` flag is (truthily) set. -/
def curatedRainbowTokenList (tokenListData : TokenListData) : List RainbowToken :=
  (tokenListWithEth tokenListData).filter fun t => t.isRainbowCurated == some true

/-- The three derived indices. -/
structure DerivedData where
  RAINBOW_TOKEN_LIST : String → Option RainbowToken
  CURATED_TOKENS : String → Option RainbowToken
  TOKEN_SAFE_LIST : String → Option String

/-- generateDerivedData: the pure derived-index builder. -/
def generateDerivedData (tokenListData : TokenListData) : DerivedData :=
  { CURATED_TOKENS :=
      keyBy (fun t => t.address) (curatedRainbowTokenList tokenListData)
    RAINBOW_TOKEN_LIST :=
      keyBy (fun t => t.address) (tokenListWithEth tokenListData)
    TOKEN_SAFE_LIST :=
      keyBy (fun id => toLowerStr id)
        ((curatedRainbowTokenList tokenListData).flatMap fun t => [t.name, t.symbol]) }

/-- The mutable state of a `RainbowTokenList` store: the accepted document
(`#tokenListDataStorage`), its derived data (`#derivedData`) and the active
update job (`#updateJob`), identified by a number. -/
structure StoreState where
  tokenListDataStorage : TokenListData
  derivedData : DerivedData
  updateJob : Option Nat

/-- The store as construction leaves it: the bundled document,
derived data computed from it, no job. -/
def initStore (RAINBOW_TOKEN_LIST_DATA : TokenListData) : StoreState :=
  { tokenListDataStorage := RAINBOW_TOKEN_LIST_DATA
    derivedData := generateDerivedData RAINBOW_TOKEN_LIST_DATA
    updateJob := none }

/-- The private `#tokenListData` setter: stores `val`, recomputes the
derived data — from the module constant `RAINBOW_TOKEN_LIST_DATA` (the
bundled document), exactly as the source line does, not from `val` — and
emits one `update` event.  Returns the new state and the number of events
emitted. -/
def setTokenListData (RAINBOW_TOKEN_LIST_DATA : TokenListData)
    (s : StoreState) (val : TokenListData) : StoreState × Nat :=
  ({ s with
      tokenListDataStorage := val
      derivedData := generateDerivedData RAINBOW_TOKEN_LIST_DATA }, 1)

/-- The startup cache-adoption path (the `then` callback of the constructor):
given the cached document read back from disk (`none` when the file is
missing or unreadable), adopt it through the setter when its timestamp is
present and strictly newer than that of the document the store holds at
this moment.  Returns the new state and the number of events emitted. -/
def cacheAdopt (RAINBOW_TOKEN_LIST_DATA : TokenListData) (s : StoreState)
    (cachedData : Option TokenListData) : StoreState × Nat :=
  match cachedData with
  | none => (s, 0)
  | some c =>
      if c.timestamp.isSome then
        if dateGt c.timestamp s.tokenListDataStorage.timestamp then
          setTokenListData RAINBOW_TOKEN_LIST_DATA s c
        else (s, 0)
      else (s, 0)

/-- A response the fetch collaborator returns: status code, parsed body
(absent on a bodiless response such as a 304) and the `etag` header. -/
structure FetchResponse where
  status : Nat
  data : Option TokenListData
  etagHeader : Option String
  deriving DecidableEq, Repr

/-- Outcome of awaiting the fetch collaborator: a response, or a thrown
network error. -/
inductive FetchOutcome where
  | ok (r : FetchResponse)
  | thrown
  deriving DecidableEq, Repr

/-- A write to the persisted cache envelope: the token-list blob or the
etag blob. -/
inductive CacheWrite where
  | tokenListCache (d : TokenListData)
  | etagCache (e : String)
  deriving DecidableEq, Repr

/-- The value `getTokenListUpdate` resolves with. -/
structure TokenListUpdate where
  newTokenList : Option TokenListData
  status : Nat
  deriving DecidableEq, Repr

/-- getTokenListUpdate: on a 200 response where the timestamp of the body is
strictly newer than that of `currentTokenListData` — the document the
CALLER passed in when the refresh began — write the document (and the etag,
when the response carries one) to the cache envelope and return the new
list; otherwise return no new list.  A thrown fetch propagates
(`Except.error`).  The cache writes performed are returned alongside. -/
def getTokenListUpdate (currentTokenListData : TokenListData)
    (fetchResult : FetchOutcome) : Except Unit (TokenListUpdate × List CacheWrite) :=
  match fetchResult with
  | .thrown => .error ()
  | .ok r =>
      if r.status = 200 then
        if dateGt (r.data.bind fun d => d.timestamp) currentTokenListData.timestamp then
          match r.data with
          | some d =>
              .ok (⟨some d, r.status⟩,
                CacheWrite.tokenListCache d ::
                  (match r.etagHeader with
                   | some e => [CacheWrite.etagCache e]
                   | none => []))
          | none => .ok (⟨none, r.status⟩, [])
        else .ok (⟨none, r.status⟩, [])
      else .ok (⟨none, r.status⟩, [])

/-- Everything one completed `#update` run produces: the store state it
leaves behind, the cache writes, the number of `update` events emitted, and
the value the returned promise (of type `Promise<void>`) resolves with. -/
structure UpdateRun where
  state : StoreState
  writes : List CacheWrite
  emits : Nat
  resolved : Unit

/-- Completion of `#update`: `captured` is the value of `#tokenListData`
read when the refresh began and passed to `getTokenListUpdate`; the
adoption (through the setter) and the unconditional `finally` clearing of
the job act on the state `s` the store holds at completion time.  A thrown
error is caught, so the promise always resolves — with `()`, since the
method returns `Promise<void>`. -/
def refreshComplete (RAINBOW_TOKEN_LIST_DATA captured : TokenListData)
    (fetchResult : FetchOutcome) (s : StoreState) : UpdateRun :=
  match getTokenListUpdate captured fetchResult with
  | .error _ =>
      { state := { s with updateJob := none }
        writes := []
        emits := 0
        resolved := () }
  | .ok (u, work) =>
      match u.newTokenList with
      | some d =>
          let p := setTokenListData RAINBOW_TOKEN_LIST_DATA s d
          { state := { p.1 with updateJob := none }
            writes := work
            emits := p.2
            resolved := () }
      | none =>
          { state := { s with updateJob := none }
            writes := work
            emits := 0
            resolved := () }

/-- A whole `#update` refresh during which no other adoption interleaves:
the captured document is the accepted document itself. -/
def runUpdate (RAINBOW_TOKEN_LIST_DATA : TokenListData) (s : StoreState)
    (fetchResult : FetchOutcome) : UpdateRun :=
  refreshComplete RAINBOW_TOKEN_LIST_DATA s.tokenListDataStorage fetchResult s

/-- The public `update()` method: reuse the active job when one is present,
otherwise install a new job (identified by `fresh`).  Returns the job the
caller receives, with the new state. -/
def updateCall (s : StoreState) (fresh : Nat) : Nat × StoreState :=
  match s.updateJob with
  | some j => (j, s)
  | none => (fresh, { s with updateJob := some fresh })

/-- A sample bundled baseline document, with timestamp 0 and no tokens. -/
def bundledDoc : TokenListData := { timestamp := some 0, tokens := [] }

/-- A sample raw token at a fresh address. -/
def tokAlpha : RawToken :=
  { address := "0xAA", decimals := 18, name := "Alpha", symbol := "ALPHA", extensions := none }

/-- A sample raw token whose lowercased address collides with the native
address of the sentinel and which carries no extension flags. -/
def fakeEth : RawToken :=
  { address := "ETH", decimals := 6, name := "Fake", symbol := "FK", extensions := none }

/-- A sample document with timestamp 5 and no tokens. -/
def docD1 : TokenListData := { timestamp := some 5, tokens := [] }

/-- A sample document with timestamp 10 containing `tokAlpha`. -/
def docD2 : TokenListData := { timestamp := some 10, tokens := [tokAlpha] }

/-- A sample document containing the sentinel-colliding token `fakeEth`. -/
def docFake : TokenListData := { timestamp := some 3, tokens := [fakeEth] }

/-- A sample cached document with timestamp 20. -/
def cachedC : TokenListData := { timestamp := some 20, tokens := [] }

/-- A sample fetched document with timestamp 10. -/
def fetchedD : TokenListData := { timestamp := some 10, tokens := [] }

/-- A sample fetched document with timestamp 7. -/
def goodDoc : TokenListData := { timestamp := some 7, tokens := [] }

/-- A sample document whose timestamp is absent (or unparsable). -/
def noTsDoc : TokenListData := { timestamp := none, tokens := [tokAlpha] }

theorem keyBy_eq_some {α : Type} (key : α → String) :
    ∀ (l : List α) (s : String) (v : α),
      keyBy key l s = some v → v ∈ l ∧ key v = s := by
  intro l
  induction l with
  | nil => intro s v h; simp [keyBy] at h
  | cons a rest ih =>
      intro s v h
      simp only [keyBy] at h
      cases hrest : keyBy key rest s with
      | some w =>
          simp only [hrest] at h
          obtain rfl := Option.some.inj h
          exact ⟨List.mem_cons_of_mem _ (ih s _ hrest).1, (ih s _ hrest).2⟩
      | none =>
          simp only [hrest] at h
          by_cases hk : key a = s
          · rw [if_pos hk] at h
            cases h
            exact ⟨List.mem_cons_self _ _, hk⟩
          · rw [if_neg hk] at h
            cases h

theorem keyBy_isSome_of_mem {α : Type} (key : α → String) {l : List α} {a : α}
    (ha : a ∈ l) (s : String) (hs : key a = s) : (keyBy key l s).isSome = true := by
  induction l with
  | nil => cases ha
  | cons b rest ih =>
      simp only [keyBy]
      cases hrest : keyBy key rest s with
      | some w => simp
      | none =>
          rcases List.mem_cons.mp ha with rfl | hmem
          · simp [hs]
          · have hrec := ih hmem
            rw [hrest] at hrec
            simp at hrec

theorem keyBy_eq_none {α : Type} (key : α → String) :
    ∀ (l : List α) (s : String), (∀ a ∈ l, key a ≠ s) → keyBy key l s = none := by
  intro l
  induction l with
  | nil => intro s _; rfl
  | cons a rest ih =>
      intro s h
      simp only [keyBy]
      rw [ih s (fun b hb => h b (List.mem_cons_of_mem _ hb))]
      simp [h a (List.mem_cons_self _ _)]

theorem keyBy_append {α : Type} (key : α → String) :
    ∀ (l₁ l₂ : List α) (s : String),
      keyBy key (l₁ ++ l₂) s =
        match keyBy key l₂ s with
        | some v => some v
        | none => keyBy key l₁ s := by
  intro l₁
  induction l₁ with
  | nil =>
      intro l₂ s
      cases h : keyBy key l₂ s <;> simp [h, keyBy]
  | cons a rest ih =>
      intro l₂ s
      simp only [List.cons_append, keyBy, List.append_eq]
      rw [ih]
      cases h : keyBy key l₂ s <;> cases h2 : keyBy key rest s <;> simp [h, h2]


/-- A comparison against an Invalid Date on the right is false. -/
theorem dateGt_none_right (x : Option Nat) : dateGt x none = false := by
  cases x <;> rfl

/-- A comparison against an Invalid Date on the left is false. -/
theorem dateGt_none_left (y : Option Nat) : dateGt none y = false := by
  cases y <;> rfl

/-- When `getTokenListUpdate` resolves with a new list, the timestamp of that list was strictly newer than the timestamp of the document the caller
passed in. -/
theorem getTokenListUpdate_fresh (cur : TokenListData) (fo : FetchOutcome)
    (u : TokenListUpdate) (w : List CacheWrite) (d : TokenListData)
    (h : getTokenListUpdate cur fo = .ok (u, w)) (hd : u.newTokenList = some d) :
    dateGt d.timestamp cur.timestamp = true := by
  cases fo with
  | thrown => simp [getTokenListUpdate] at h
  | ok r =>
      simp only [getTokenListUpdate] at h
      by_cases h200 : r.status = 200
      · rw [if_pos h200] at h
        by_cases hfresh :
            dateGt (r.data.bind fun d => d.timestamp) cur.timestamp = true
        · rw [if_pos hfresh] at h
          cases hdata : r.data with
          | some dd =>
              rw [hdata] at h hfresh
              obtain ⟨hu, hw⟩ := Prod.mk.injEq .. ▸ (Except.ok.inj h)
              rw [← hu] at hd
              simp only at hd
              obtain rfl := Option.some.inj hd
              simpa using hfresh
          | none =>
              rw [hdata] at h
              obtain ⟨hu, hw⟩ := Prod.mk.injEq .. ▸ (Except.ok.inj h)
              rw [← hu] at hd
              simp at hd
        · rw [if_neg hfresh] at h
          obtain ⟨hu, hw⟩ := Prod.mk.injEq .. ▸ (Except.ok.inj h)
          rw [← hu] at hd
          simp at hd
      · rw [if_neg h200] at h
        obtain ⟨hu, hw⟩ := Prod.mk.injEq .. ▸ (Except.ok.inj h)
        rw [← hu] at hd
        simp at hd

/-- Every branch of a completed refresh clears the update job. -/
theorem refreshClearsJob (b c : TokenListData) (fo : FetchOutcome) (s : StoreState) :
    (refreshComplete b c fo s).state.updateJob = none := by
  unfold refreshComplete
  cases hg : getTokenListUpdate c fo with
  | error e => rfl
  | ok p =>
      obtain ⟨u, w⟩ := p
      cases hn : u.newTokenList <;> simp [hn, setTokenListData]


/-- C1: evaluation of the code at the failing input.  `docD2.timestamp`
(10) is strictly newer than `docD1.timestamp` (5); after the store adopts
`docD1` and then `docD2` through the `#tokenListData` setter, the accepted
document is `docD2`, yet the full index does not contain the `docD2` token at
address `0xaa` — because the setter recomputes the derived data from the
bundled constant rather than from the newly accepted document — while the
derived indices computed from `docD2` do contain it. -/
theorem C1_setter_keeps_bundled_indices :
    dateGt docD2.timestamp docD1.timestamp = true ∧
    (setTokenListData bundledDoc
        ((setTokenListData bundledDoc (initStore bundledDoc) docD1).1)
        docD2).1.tokenListDataStorage = docD2 ∧
    (setTokenListData bundledDoc
        ((setTokenListData bundledDoc (initStore bundledDoc) docD1).1)
        docD2).1.derivedData.RAINBOW_TOKEN_LIST "0xaa" = none ∧
    (generateDerivedData docD2).RAINBOW_TOKEN_LIST "0xaa"
      = some (normalizeToken tokAlpha) := by
  refine ⟨rfl, rfl, by decide, by decide⟩

/-- C2 counterexample: a refresh that captured the accepted document
(timestamp 0) when it began, a startup cache adoption that completes
meanwhile with timestamp 20, and a 200 response carrying timestamp 10.
The freshness check of the refresh runs against the captured document, not the
currently accepted one, so the completion adopts the timestamp-10 document
over the accepted timestamp-20 one: the accepted timestamp decreases. -/
theorem C2_interleaving_breaks_monotonicity :
    (cacheAdopt bundledDoc (initStore bundledDoc)
        (some cachedC)).1.tokenListDataStorage.timestamp = some 20 ∧
    (refreshComplete bundledDoc (initStore bundledDoc).tokenListDataStorage
        (.ok ⟨200, some fetchedD, none⟩)
        ((cacheAdopt bundledDoc (initStore bundledDoc)
          (some cachedC)).1)).state.tokenListDataStorage.timestamp = some 10 ∧
    dateGt (some 10) (some 20) = false := by
  refine ⟨by decide, by decide, by decide⟩

/-- C2 amended: each adoption path on its own never adopts a document that
is not strictly newer than its comparison baseline — the currently accepted
document for the startup cache path, and the document captured at refresh
start for the network path (for a refresh with no interleaved adoption the
two coincide).  So each path either leaves the accepted document unchanged
or moves to one with a strictly greater timestamp; the cross-path
at-completion re-evaluation the claim asserts does not hold (see the
counterexample). -/
theorem C2_adoption_monotone_per_path (bundled : TokenListData) (s : StoreState)
    (cached : Option TokenListData) (fetchResult : FetchOutcome) :
    ((cacheAdopt bundled s cached).1.tokenListDataStorage = s.tokenListDataStorage ∨
      dateGt (cacheAdopt bundled s cached).1.tokenListDataStorage.timestamp
        s.tokenListDataStorage.timestamp = true) ∧
    ((runUpdate bundled s fetchResult).state.tokenListDataStorage = s.tokenListDataStorage ∨
      dateGt (runUpdate bundled s fetchResult).state.tokenListDataStorage.timestamp
        s.tokenListDataStorage.timestamp = true) := by
  constructor
  · cases cached with
    | none => left; rfl
    | some c =>
        have hc : cacheAdopt bundled s (some c) =
            if c.timestamp.isSome then
              if dateGt c.timestamp s.tokenListDataStorage.timestamp then
                setTokenListData bundled s c
              else (s, 0)
            else (s, 0) := rfl
        rw [hc]
        by_cases h1 : c.timestamp.isSome = true
        · rw [if_pos h1]
          by_cases h2 : dateGt c.timestamp s.tokenListDataStorage.timestamp = true
          · rw [if_pos h2]
            right
            simpa [setTokenListData] using h2
          · rw [if_neg h2]
            left
            rfl
        · rw [if_neg h1]
          left
          rfl
  · unfold runUpdate refreshComplete
    cases hg : getTokenListUpdate s.tokenListDataStorage fetchResult with
    | error e => left; rfl
    | ok p =>
        obtain ⟨u, w⟩ := p
        cases hn : u.newTokenList with
        | none => left; simp [hn]
        | some d =>
            right
            simp only [hn, setTokenListData]
            exact getTokenListUpdate_fresh _ _ _ _ _ hg hn

/-- C5: every address that is a key of the curated index is also a key of
the full index, and the token the curated index stores there has its
`isRainbowCurated` flag set. -/
theorem C5_curated_subset_invariant (d : TokenListData) (a : String) (t : RainbowToken)
    (h : (generateDerivedData d).CURATED_TOKENS a = some t) :
    ((generateDerivedData d).RAINBOW_TOKEN_LIST a).isSome = true ∧
    t.isRainbowCurated = some true := by
  simp only [generateDerivedData] at h ⊢
  obtain ⟨hmem, hkey⟩ := keyBy_eq_some _ _ _ _ h
  rw [curatedRainbowTokenList] at hmem
  obtain ⟨hfull, hflag⟩ := List.mem_filter.mp hmem
  constructor
  · exact keyBy_isSome_of_mem _ hfull _ hkey
  · simpa using hflag

/-- C5 witness: in the bundled baseline document the curated index holds
the sentinel at key `eth`, so that key is in the full index and the stored
token is curated. -/
theorem C5_curated_subset_invariant_witness :
    (generateDerivedData bundledDoc).CURATED_TOKENS "eth" = some ethWithAddress ∧
    (((generateDerivedData bundledDoc).RAINBOW_TOKEN_LIST "eth").isSome = true ∧
      ethWithAddress.isRainbowCurated = some true) :=
  ⟨by decide, C5_curated_subset_invariant bundledDoc "eth" ethWithAddress (by decide)⟩

/-- C9: whatever the document, the sentinel keeps `eth` a key of the full
index and of the curated index, and keeps `ethereum` and `eth` keys of the
safe-name index. -/
theorem C9_sentinel_keys_always_present (d : TokenListData) :
    ((generateDerivedData d).RAINBOW_TOKEN_LIST "eth").isSome = true ∧
    ((generateDerivedData d).CURATED_TOKENS "eth").isSome = true ∧
    ((generateDerivedData d).TOKEN_SAFE_LIST "ethereum").isSome = true ∧
    ((generateDerivedData d).TOKEN_SAFE_LIST "eth").isSome = true := by
  have heth : ethWithAddress ∈ tokenListWithEth d := List.mem_cons_self _ _
  have hcur : ethWithAddress ∈ curatedRainbowTokenList d := by
    rw [curatedRainbowTokenList]
    exact List.mem_filter.mpr ⟨heth, by decide⟩
  have hname : ("Ethereum" : String) ∈
      (curatedRainbowTokenList d).flatMap fun t => [t.name, t.symbol] :=
    List.mem_flatMap.mpr ⟨ethWithAddress, hcur, by decide⟩
  have hsym : ("ETH" : String) ∈
      (curatedRainbowTokenList d).flatMap fun t => [t.name, t.symbol] :=
    List.mem_flatMap.mpr ⟨ethWithAddress, hcur, by decide⟩
  refine ⟨?_, ?_, ?_, ?_⟩
  · exact keyBy_isSome_of_mem _ heth _ rfl
  · exact keyBy_isSome_of_mem _ hcur _ rfl
  · exact keyBy_isSome_of_mem _ hname _ (by decide)
  · exact keyBy_isSome_of_mem _ hsym _ (by decide)


/-- C3 counterexample: `#update` returns `Promise<void>`, so the value the
promise resolves with is the same unit value after a thrown transport error
as after a successful adoption, even though the two runs leave different
accepted documents — the resolved outcome carries no success / no-change /
error discrimination at all. -/
theorem C3_resolved_value_indicates_nothing :
    (runUpdate bundledDoc (initStore bundledDoc) .thrown).resolved
      = (runUpdate bundledDoc (initStore bundledDoc)
          (.ok ⟨200, some goodDoc, some "v1"⟩)).resolved ∧
    (runUpdate bundledDoc (initStore bundledDoc) .thrown).state.tokenListDataStorage
      ≠ (runUpdate bundledDoc (initStore bundledDoc)
          (.ok ⟨200, some goodDoc, some "v1"⟩)).state.tokenListDataStorage := by
  refine ⟨rfl, by decide⟩

/-- C3 amended: on a thrown transport error the refresh resolves rather
than rejecting, and leaves the accepted document unchanged with no cache
write, no notification and the job cleared; a response with a status other
than 200 likewise resolves with the document unchanged.  But the resolved
value is the unit value in every case — the caller receives no failure
indication from it; the error is only reported to the logger. -/
theorem C3_transport_error_resolves_unchanged (bundled : TokenListData)
    (s : StoreState) (r : FetchResponse) (h : r.status ≠ 200) :
    (runUpdate bundled s .thrown).state.tokenListDataStorage = s.tokenListDataStorage ∧
    (runUpdate bundled s .thrown).writes = [] ∧
    (runUpdate bundled s .thrown).emits = 0 ∧
    (runUpdate bundled s .thrown).state.updateJob = none ∧
    (runUpdate bundled s (.ok r)).state.tokenListDataStorage = s.tokenListDataStorage ∧
    (runUpdate bundled s (.ok r)).resolved = (runUpdate bundled s .thrown).resolved := by
  have hok : getTokenListUpdate s.tokenListDataStorage (.ok r)
      = .ok (⟨none, r.status⟩, []) := by
    simp only [getTokenListUpdate]
    rw [if_neg h]
  refine ⟨rfl, rfl, rfl, rfl, ?_, rfl⟩
  unfold runUpdate refreshComplete
  rw [hok]

/-- C3 amended witness: instantiation at a 500 response against the
baseline store. -/
theorem C3_transport_error_resolves_unchanged_witness :
    (500 : Nat) ≠ 200 ∧
    ((runUpdate bundledDoc (initStore bundledDoc) .thrown).state.tokenListDataStorage
        = (initStore bundledDoc).tokenListDataStorage ∧
      (runUpdate bundledDoc (initStore bundledDoc) .thrown).writes = [] ∧
      (runUpdate bundledDoc (initStore bundledDoc) .thrown).emits = 0 ∧
      (runUpdate bundledDoc (initStore bundledDoc) .thrown).state.updateJob = none ∧
      (runUpdate bundledDoc (initStore bundledDoc)
          (.ok ⟨500, none, none⟩)).state.tokenListDataStorage
        = (initStore bundledDoc).tokenListDataStorage ∧
      (runUpdate bundledDoc (initStore bundledDoc) (.ok ⟨500, none, none⟩)).resolved
        = (runUpdate bundledDoc (initStore bundledDoc) .thrown).resolved) :=
  ⟨by decide,
    C3_transport_error_resolves_unchanged bundledDoc (initStore bundledDoc)
      ⟨500, none, none⟩ (by decide)⟩

/-- C4: with no job active, `update()` installs a new job and a second call
before completion returns that same job without changing the state (one
logical refresh, one fetch); whatever the fetch outcome, completion clears
the job, so a later call installs a brand-new one. -/
theorem C4_update_dedup_and_clear (s : StoreState) (f1 f2 : Nat)
    (h : s.updateJob = none) (bundled captured : TokenListData)
    (fetchResult : FetchOutcome) :
    (updateCall s f1).1 = f1 ∧
    updateCall (updateCall s f1).2 f2 = (f1, (updateCall s f1).2) ∧
    (refreshComplete bundled captured fetchResult (updateCall s f1).2).state.updateJob
      = none ∧
    (updateCall
      (refreshComplete bundled captured fetchResult (updateCall s f1).2).state f2).1
      = f2 := by
  have h1 : updateCall s f1 = (f1, { s with updateJob := some f1 }) := by
    unfold updateCall
    rw [h]
  refine ⟨by rw [h1], by rw [h1]; rfl, refreshClearsJob _ _ _ _, ?_⟩
  unfold updateCall
  rw [refreshClearsJob]

/-- C4 witness: instantiation at the baseline store with job ids 1 and 2
and a 304 fetch outcome. -/
theorem C4_update_dedup_and_clear_witness :
    (initStore bundledDoc).updateJob = none ∧
    ((updateCall (initStore bundledDoc) 1).1 = 1 ∧
      updateCall (updateCall (initStore bundledDoc) 1).2 2
        = (1, (updateCall (initStore bundledDoc) 1).2) ∧
      (refreshComplete bundledDoc bundledDoc (.ok ⟨304, none, none⟩)
          (updateCall (initStore bundledDoc) 1).2).state.updateJob = none ∧
      (updateCall
        (refreshComplete bundledDoc bundledDoc (.ok ⟨304, none, none⟩)
          (updateCall (initStore bundledDoc) 1).2).state 2).1 = 2) :=
  ⟨rfl,
    C4_update_dedup_and_clear (initStore bundledDoc) 1 2 rfl bundledDoc bundledDoc
      (.ok ⟨304, none, none⟩)⟩

/-- C6: every binding of the safe-name index maps the lowercased form of a
name or symbol of a curated token to that original identifier string. -/
theorem C6_safe_name_invariant (d : TokenListData) (k v : String)
    (h : (generateDerivedData d).TOKEN_SAFE_LIST k = some v) :
    (∃ t ∈ curatedRainbowTokenList d, v = t.name ∨ v = t.symbol) ∧
    k = toLowerStr v := by
  simp only [generateDerivedData] at h
  obtain ⟨hmem, hkey⟩ := keyBy_eq_some _ _ _ _ h
  obtain ⟨t, ht, hv⟩ := List.mem_flatMap.mp hmem
  simp only [List.mem_cons, List.mem_singleton] at hv
  rcases hv with hv | hv | hv
  · exact ⟨⟨t, ht, Or.inl hv⟩, hkey.symm⟩
  · exact ⟨⟨t, ht, Or.inr hv⟩, hkey.symm⟩
  · cases hv

/-- C6 witness: in the bundled baseline document the safe-name index binds
key `eth` to the original sentinel symbol `ETH`. -/
theorem C6_safe_name_invariant_witness :
    (generateDerivedData bundledDoc).TOKEN_SAFE_LIST "eth" = some "ETH" ∧
    ((∃ t ∈ curatedRainbowTokenList bundledDoc, "ETH" = t.name ∨ "ETH" = t.symbol) ∧
      "eth" = toLowerStr "ETH") :=
  ⟨by decide, C6_safe_name_invariant bundledDoc "eth" "ETH" (by decide)⟩


/-- C7: whenever the response is not a 200, or is a 200 where the timestamp
of the body is not strictly newer than that of the accepted document, the refresh
adopts nothing: it leaves the accepted document and the derived indices
unchanged, performs no cache write, emits no notification, and resolves. -/
theorem C7_no_change_is_frame (bundled : TokenListData) (s : StoreState)
    (r : FetchResponse)
    (h : r.status ≠ 200 ∨
      dateGt (r.data.bind fun d => d.timestamp) s.tokenListDataStorage.timestamp
        = false) :
    (runUpdate bundled s (.ok r)).state.tokenListDataStorage = s.tokenListDataStorage ∧
    (runUpdate bundled s (.ok r)).state.derivedData = s.derivedData ∧
    (runUpdate bundled s (.ok r)).writes = [] ∧
    (runUpdate bundled s (.ok r)).emits = 0 ∧
    (runUpdate bundled s (.ok r)).resolved = () := by
  have hok : getTokenListUpdate s.tokenListDataStorage (.ok r)
      = .ok (⟨none, r.status⟩, []) := by
    simp only [getTokenListUpdate]
    rcases h with h | h
    · rw [if_neg h]
    · by_cases h200 : r.status = 200
      · rw [if_pos h200, if_neg (by simp [h])]
      · rw [if_neg h200]
  unfold runUpdate refreshComplete
  rw [hok]
  exact ⟨rfl, rfl, rfl, rfl, rfl⟩

/-- C7 witness: instantiation at a 304 response against the baseline
store. -/
theorem C7_no_change_is_frame_witness :
    ((304 : Nat) ≠ 200 ∨
      dateGt ((none : Option TokenListData).bind fun d => d.timestamp)
        (initStore bundledDoc).tokenListDataStorage.timestamp = false) ∧
    ((runUpdate bundledDoc (initStore bundledDoc)
        (.ok ⟨304, none, none⟩)).state.tokenListDataStorage
        = (initStore bundledDoc).tokenListDataStorage ∧
      (runUpdate bundledDoc (initStore bundledDoc)
        (.ok ⟨304, none, none⟩)).state.derivedData
        = (initStore bundledDoc).derivedData ∧
      (runUpdate bundledDoc (initStore bundledDoc) (.ok ⟨304, none, none⟩)).writes = [] ∧
      (runUpdate bundledDoc (initStore bundledDoc) (.ok ⟨304, none, none⟩)).emits = 0 ∧
      (runUpdate bundledDoc (initStore bundledDoc) (.ok ⟨304, none, none⟩)).resolved
        = ()) :=
  ⟨Or.inl (by decide),
    C7_no_change_is_frame bundledDoc (initStore bundledDoc) ⟨304, none, none⟩
      (Or.inl (by decide))⟩

/-- C8: when the timestamp of the candidate document or of the currently
accepted document is absent (or unparsable), the freshness comparison is
false, so a 200 refresh returns no new list and writes nothing, and the
startup cache-adoption path adopts nothing and emits nothing. -/
theorem C8_absent_timestamp_never_adopts (bundled : TokenListData) (s : StoreState)
    (cand : TokenListData) (etag : Option String)
    (h : cand.timestamp = none ∨ s.tokenListDataStorage.timestamp = none) :
    getTokenListUpdate s.tokenListDataStorage (.ok ⟨200, some cand, etag⟩)
      = .ok (⟨none, 200⟩, []) ∧
    cacheAdopt bundled s (some cand) = (s, 0) := by
  have hgt : dateGt cand.timestamp s.tokenListDataStorage.timestamp = false := by
    rcases h with h | h
    · rw [h]
      exact dateGt_none_left _
    · rw [h]
      exact dateGt_none_right _
  constructor
  · simp [getTokenListUpdate, hgt]
  · have hc : cacheAdopt bundled s (some cand) =
        if cand.timestamp.isSome then
          if dateGt cand.timestamp s.tokenListDataStorage.timestamp then
            setTokenListData bundled s cand
          else (s, 0)
        else (s, 0) := rfl
    rw [hc]
    simp [hgt]

/-- C8 witness: instantiation at a candidate document with an absent
timestamp, against the baseline store. -/
theorem C8_absent_timestamp_never_adopts_witness :
    (noTsDoc.timestamp = none ∨
      (initStore bundledDoc).tokenListDataStorage.timestamp = none) ∧
    (getTokenListUpdate (initStore bundledDoc).tokenListDataStorage
        (.ok ⟨200, some noTsDoc, some "v1"⟩) = .ok (⟨none, 200⟩, []) ∧
      cacheAdopt bundledDoc (initStore bundledDoc) (some noTsDoc)
        = (initStore bundledDoc, 0)) :=
  ⟨Or.inl rfl,
    C8_absent_timestamp_never_adopts bundledDoc (initStore bundledDoc) noTsDoc
      (some "v1") (Or.inl rfl)⟩

/-- C10: when the document carries a raw token whose lowercased address is
`eth` (and no later raw token collides with it), the full index stores the
normalized form of that token at key `eth` — the injected sentinel, prepended
first, is overwritten because later entries win on key collision. -/
theorem C10_remote_eth_overrides_sentinel (d : TokenListData)
    (pre post : List RawToken) (t : RawToken)
    (hsplit : d.tokens = pre ++ t :: post)
    (haddr : toLowerStr t.address = "eth")
    (hlast : ∀ u ∈ post, toLowerStr u.address ≠ "eth") :
    (generateDerivedData d).RAINBOW_TOKEN_LIST "eth" = some (normalizeToken t) := by
  have hB : keyBy (fun x : RainbowToken => x.address)
      (post.map normalizeToken) "eth" = none := by
    apply keyBy_eq_none
    intro x hx
    obtain ⟨u, hu, rfl⟩ := List.mem_map.mp hx
    simpa [normalizeToken] using hlast u hu
  have hmid : keyBy (fun x : RainbowToken => x.address)
      (normalizeToken t :: post.map normalizeToken) "eth"
      = some (normalizeToken t) := by
    simp only [keyBy, hB]
    simp [normalizeToken, haddr]
  simp only [generateDerivedData, tokenListWithEth, hsplit, List.map_append,
    List.map_cons]
  simp only [keyBy]
  rw [keyBy_append, hmid]

/-- C10 witness: instantiation at the document whose single raw token has
address `ETH`. -/
theorem C10_remote_eth_overrides_sentinel_witness :
    docFake.tokens = [] ++ fakeEth :: [] ∧
    toLowerStr fakeEth.address = "eth" ∧
    (∀ u ∈ ([] : List RawToken), toLowerStr u.address ≠ "eth") ∧
    (generateDerivedData docFake).RAINBOW_TOKEN_LIST "eth"
      = some (normalizeToken fakeEth) :=
  ⟨rfl, by decide, by decide,
    C10_remote_eth_overrides_sentinel docFake [] [] fakeEth rfl (by decide)
      (by decide)⟩

end Rainbow
